import Mathlib

/-!
Verification of the cove repository: a shallow embedding of the chat
server's room/session logic (src/cove-server/src/main.rs), the vault
migration routine (src/src/vault/migrate.rs), the Border widget size
computation (src/src/ui/widgets/border.rs) and the threaded-message
layout engine (src/src/ui/chat/tree/layout.rs), together with theorems
settling the frozen claims about the natural-language specification.

Parts of the repository referenced by these files but absent from the
source tree (the cove-core value types and packets, cove-server's
util.rs, the client's store.rs and tree_blocks.rs) are modelled from the
specification; each such definition carries a doc comment starting with
`Modelled from the spec:`.
-/

/-! ## Server data model (cove-core types, modelled from the spec) -/

/-- Modelled from the spec: `MessageId` is an opaque content-addressed
token.  `MessageId::of` (hashing a string) and `Message::id()` (hashing
a message's fields) are modelled as injective constructor applications,
the usual collision-free idealization of a content hash.  The
constructors `ofMsgRoot`/`ofMsgChild` carry exactly the fields of
`Message` (split on the presence of the optional parent, to keep the
inductive non-nested). -/
inductive MessageId where
  | ofString (s : String)
  | ofMsgRoot (time : Nat) (pred : MessageId)
      (identity : Nat) (nick : String) (content : String)
  | ofMsgChild (time : Nat) (pred : MessageId) (parent : MessageId)
      (identity : Nat) (nick : String) (content : String)
  deriving DecidableEq, Repr

/-- Modelled from the spec: `Message { time, pred, parent, identity, nick,
content }` (cove-core is not under src/).  `time` is a u128 timestamp,
modelled as `Nat`; `identity` is the opaque content-addressed `Identity`
token, modelled as `Nat`. -/
structure Message where
  time : Nat
  pred : MessageId
  parent : Option MessageId
  identity : Nat
  nick : String
  content : String
  deriving DecidableEq, Repr

/-- Modelled from the spec: `Message::id()` is derived deterministically
from the message's other fields. -/
def Message.id (m : Message) : MessageId :=
  match m.parent with
  | none => .ofMsgRoot m.time m.pred m.identity m.nick m.content
  | some p => .ofMsgChild m.time m.pred p m.identity m.nick m.content

/-- Modelled from the spec: `Session { id: SessionId, nick, identity }`.
`SessionId` is an opaque random token, modelled as `Nat`. -/
structure Session where
  id : Nat
  nick : String
  identity : Nat
  deriving DecidableEq, Repr

/-- A `Client` as in cove-server: a `Session` paired with its send sink.
The sink is not part of the state here; packets sent to a client are
recorded in the explicit output lists of each operation, keyed by the
client's session id. -/
structure Client where
  session : Session
  deriving DecidableEq, Repr

/-- Modelled from the spec: server → client notification bodies. -/
inductive Ntf where
  | join (who : Session)
  | part (who : Session)
  | nick (who : Session)
  | send (message : Message)
  deriving DecidableEq, Repr

/-- Modelled from the spec: server → client reply bodies (only the
variants the claims need). -/
inductive RplBody where
  | identifySuccess (you : Session) (others : List Session) (last_message : MessageId)
  | sendSuccess (message : Message)
  | sendInvalidContent (reason : String)
  deriving DecidableEq, Repr

/-- Modelled from the spec: packets sent from server to client, either a
correlated reply `Rpl { id, rpl }` or an unsolicited `Ntf { ntf }`. -/
inductive Packet where
  | rpl (id : Nat) (body : RplBody)
  | ntf (n : Ntf)
  deriving DecidableEq, Repr

/-- `Room` state from cove-server/src/main.rs: member map, last message
id, last timestamp.  The `HashMap<SessionId, Client>` is modelled as a
list of clients (theorems that depend on key uniqueness take a
no-duplicate hypothesis on the session ids). -/
structure Room where
  name : String
  clients : List Client
  last_message : MessageId
  last_timestamp : Nat
  deriving DecidableEq, Repr

/-- `Room::new` from cove-server/src/main.rs: an empty member map, a
`last_message` derived by `MessageId::of` from a freshly drawn random
u64 (`seed` stands for the value produced by `rand::thread_rng()`), and
`last_timestamp = util::timestamp()` (`now` stands for the clock
reading). -/
def Room.new (name : String) (seed : Nat) (now : Nat) : Room :=
  { name := name
    clients := []
    last_message := .ofString (toString seed)
    last_timestamp := now }

/-- Modelled from the spec: `util::timestamp_after` (cove-server's
util.rs is not under src/) computes `t' = max(last_timestamp + 1,
now())`. -/
def timestamp_after (last now : Nat) : Nat :=
  max (last + 1) now

/-- `Room::join` from cove-server/src/main.rs: a duplicated session id is
a fatal generator collision (modelled as `none`); otherwise `JoinNtf` is
broadcast via `notify_all` to the clients currently in the map — the
joining client is not yet among them — and only then is the client
inserted.  The returned list records, in iteration order, which session
id was sent which packet. -/
def Room.join (r : Room) (c : Client) : Option (Room × List (Nat × Packet)) :=
  if r.clients.any (fun x => x.session.id == c.session.id) then
    none
  else
    some ({ r with clients := r.clients ++ [c] },
          r.clients.map (fun x => (x.session.id, Packet.ntf (.join c.session))))

/-- `Room::send` from cove-server/src/main.rs: look up the sender
(absent sender is a fatal indexing error, modelled as `none`), advance
`last_timestamp` via `timestamp_after`, build the message with
`pred = last_message` (the value from before this send), set
`last_message` to the new message's id, and broadcast `SendNtf` to every
member except the sender.  Returns the new room state, the message, and
the broadcast list. -/
def Room.send (r : Room) (id : Nat) (parent : Option MessageId) (content : String)
    (now : Nat) : Option (Room × Message × List (Nat × Packet)) :=
  match r.clients.find? (fun c => c.session.id == id) with
  | none => none
  | some client =>
    let t := timestamp_after r.last_timestamp now
    let message : Message :=
      { time := t
        pred := r.last_message
        parent := parent
        identity := client.session.identity
        nick := client.session.nick
        content := content }
    let r' := { r with last_timestamp := t, last_message := message.id }
    some (r', message,
      (r.clients.filter (fun c => c.session.id != id)).map
        (fun c => (c.session.id, Packet.ntf (.send message))))

/-- Modelled from the spec: `util::check_content` (cove-server's util.rs
is not under src/).  Validation rejects content that is empty after
trimming — i.e. consists only of whitespace — with reason `"empty"`
(scenario S4); the further policy limits (length bound, control
characters) are left as always-accepting here since the spec fixes no
concrete bound. -/
def check_content (content : String) : Option String :=
  if content.data.all Char.isWhitespace then some "empty" else none

/-- `ServerSession::handle_send` from cove-server/src/main.rs: on a
validation failure reply `SendRpl::InvalidContent { reason }` and return
without ever locking the room; otherwise run `Room::send` and reply
`SendRpl::Success { message }`.  Returns the replies sent to the sender,
the room state afterwards, and the notifications broadcast to other
members. -/
def handleSend (r : Room) (sid : Nat) (cmdId : Nat) (parent : Option MessageId)
    (content : String) (now : Nat) :
    Option (List Packet × Room × List (Nat × Packet)) :=
  match check_content content with
  | some reason => some ([Packet.rpl cmdId (.sendInvalidContent reason)], r, [])
  | none =>
    match r.send sid parent content now with
    | none => none
    | some (r', message, ntfs) =>
      some ([Packet.rpl cmdId (.sendSuccess message)], r', ntfs)

/-- `Server::welcome` from cove-server/src/main.rs: reply
`IdentifyRpl::Success { you, others, last_message }` where `others` is
the sessions of the clients currently in the room's map and
`last_message` is the room's current value. -/
def Server.welcome (cmdId : Nat) (you : Session) (r : Room) : Packet :=
  .rpl cmdId (.identifySuccess you (r.clients.map (fun c => c.session)) r.last_message)

/-- The atomic welcome+join section of `Server::greet` from
cove-server/src/main.rs (lines 311–322): under the single exclusive hold
of the room, first `welcome` the new client, then `join` it.  Returns
the packet sent to the new client, the `JoinNtf` broadcast list, and the
room state after insertion. -/
def Server.greetAtomic (cmdId : Nat) (you : Session) (r : Room) :
    Option (Packet × List (Nat × Packet) × Room) :=
  let w := Server.welcome cmdId you r
  match r.join { session := you } with
  | none => none
  | some (r', ntfs) => some (w, ntfs, r')

/-! ## Vault migration (src/src/vault/migrate.rs) -/

/-- The vault state seen by `migrate`: the `user_version` pragma and the
database contents (abstract, since the individual migration bodies are
SQL). -/
structure VaultState (Db : Type) where
  user_version : Nat
  db : Db
  deriving DecidableEq, Repr

/-- `migrate` from src/src/vault/migrate.rs: read `user_version`, apply
the migrations from index `user_version` on (`MIGRATIONS.iter()
.enumerate().skip(user_version)`), then set `user_version` to the total
number of migrations and commit.  A failing migration aborts the
transaction (`Except.error`). -/
def migrate {Db : Type} (migrations : List (Db → Except String Db))
    (s : VaultState Db) : Except String (VaultState Db) :=
  match (migrations.drop s.user_version).foldlM (fun d m => m d) s.db with
  | .error e => .error e
  | .ok db => .ok { user_version := migrations.length, db := db }

/-! ## Border widget (src/src/ui/widgets/border.rs) -/

/-- A widget's `size` method, as a function of the optional max-width and
max-height bounds.  u16 values are modelled as `Nat`; `saturating_sub`
is `Nat` subtraction. -/
def WidgetSize : Type := Option Nat → Option Nat → Nat × Nat

/-- `Border::size` from src/src/ui/widgets/border.rs: reduce each bound
by 2 (saturating at 0), query the inner widget, and add `(2, 2)`. -/
def borderSize (inner : WidgetSize) (maxWidth maxHeight : Option Nat) : Nat × Nat :=
  let maxWidth := maxWidth.map (fun w => w - 2)
  let maxHeight := maxHeight.map (fun h => h - 2)
  let size := inner maxWidth maxHeight
  (size.1 + 2, size.2 + 2)

/-! ## Server-side theorems -/

/-- Helper: in a list of clients with pairwise-distinct session ids, a
member's session id addresses exactly one entry of a per-member packet
list built by mapping over the clients. -/
theorem countP_addressed_eq_one (l : List Client) (pkt : Packet) (c : Client)
    (hc : c ∈ l) (hnd : (l.map (fun x => x.session.id)).Nodup) :
    (l.map (fun x => (x.session.id, pkt))).countP
      (fun e => e.1 == c.session.id) = 1 := by
  induction l with
  | nil => cases hc
  | cons x t ih =>
    simp only [List.map_cons, List.nodup_cons, List.mem_map] at hnd
    rcases List.mem_cons.mp hc with rfl | hct
    · simp only [List.map_cons, List.countP_cons, beq_self_eq_true, if_pos]
      have : (t.map (fun x => (x.session.id, pkt))).countP
          (fun e => e.1 == c.session.id) = 0 := by
        apply List.countP_eq_zero.mpr
        intro e he
        rcases List.mem_map.mp he with ⟨y, hy, rfl⟩
        have : y.session.id ≠ c.session.id := fun h => hnd.1 ⟨y, hy, h⟩
        simpa using this
      simp [this]
    · have hne : x.session.id ≠ c.session.id := by
        intro h
        exact hnd.1 ⟨c, hct, h.symm⟩
      have := ih hct hnd.2
      simp only [List.map_cons, List.countP_cons]
      simpa [hne] using this

/-- C1: for every room and successful send, the constructed message's
`pred` equals the room's `last_message` from immediately before that
send and the room's `last_message` afterwards equals the new message's
`id()`; hence across two consecutive successful sends in one room the
second message's `pred` equals the first message's `id()` (hash-chain). -/
theorem c1_send_hash_chain :
    (∀ (r : Room) (sid : Nat) (parent : Option MessageId) (content : String)
        (now : Nat) (r' : Room) (m : Message) (ntfs : List (Nat × Packet)),
        r.send sid parent content now = some (r', m, ntfs) →
        m.pred = r.last_message ∧ r'.last_message = m.id) ∧
    (∀ (r₁ : Room) (sid₁ sid₂ : Nat) (p₁ p₂ : Option MessageId) (c₁ c₂ : String)
        (now₁ now₂ : Nat) (r₂ r₃ : Room) (m₁ m₂ : Message)
        (n₁ n₂ : List (Nat × Packet)),
        r₁.send sid₁ p₁ c₁ now₁ = some (r₂, m₁, n₁) →
        r₂.send sid₂ p₂ c₂ now₂ = some (r₃, m₂, n₂) →
        m₂.pred = m₁.id) := by
  have key : ∀ (r : Room) (sid : Nat) (parent : Option MessageId) (content : String)
      (now : Nat) (r' : Room) (m : Message) (ntfs : List (Nat × Packet)),
      r.send sid parent content now = some (r', m, ntfs) →
      m.pred = r.last_message ∧ r'.last_message = m.id := by
    intro r sid parent content now r' m ntfs h
    unfold Room.send at h
    cases hf : r.clients.find? (fun c => c.session.id == sid) with
    | none => rw [hf] at h; cases h
    | some client =>
      rw [hf] at h
      simp only [Option.some.injEq, Prod.mk.injEq] at h
      obtain ⟨hr', hm, -⟩ := h
      subst hm
      constructor
      · rfl
      · rw [← hr']
  refine ⟨key, ?_⟩
  intro r₁ sid₁ sid₂ p₁ p₂ c₁ c₂ now₁ now₂ r₂ r₃ m₁ m₂ n₁ n₂ h₁ h₂
  have k₁ := key _ _ _ _ _ _ _ _ h₁
  have k₂ := key _ _ _ _ _ _ _ _ h₂
  rw [k₂.1, k₁.2]

/-- A two-member room used to instantiate the send theorems. -/
def sendDemoRoom : Room :=
  { name := "r"
    clients := [{ session := { id := 1, nick := "a", identity := 7 } },
                { session := { id := 2, nick := "b", identity := 8 } }]
    last_message := .ofString "0"
    last_timestamp := 5 }

/-- Witness for C1 at a concrete two-send run. -/
theorem c1_send_hash_chain_witness :
    ∃ (r₂ r₃ : Room) (m₁ m₂ : Message) (n₁ n₂ : List (Nat × Packet)),
      sendDemoRoom.send 1 none "hello" 6 = some (r₂, m₁, n₁) ∧
      r₂.send 2 none "world" 6 = some (r₃, m₂, n₂) ∧
      m₁.pred = sendDemoRoom.last_message ∧ r₂.last_message = m₁.id ∧
      m₂.pred = m₁.id := by
  refine ⟨_, _, _, _, _, _, rfl, rfl, ?_, ?_, ?_⟩
  · exact (c1_send_hash_chain.1 sendDemoRoom 1 none "hello" 6 _ _ _ rfl).1
  · exact (c1_send_hash_chain.1 sendDemoRoom 1 none "hello" 6 _ _ _ rfl).2
  · exact c1_send_hash_chain.2 sendDemoRoom 1 2 none none "hello" "world" 6 6
      _ _ _ _ _ _ rfl rfl

/-- C4: every successful send stamps the message with
`t' = max(last_timestamp + 1, now)` and stores `t'` as the room's new
`last_timestamp`, so the timestamp strictly increases across a send;
hence across two consecutive successful sends the second message's time
is strictly greater than the first's. -/
theorem c4_timestamp_strictly_increases :
    (∀ (r : Room) (sid : Nat) (parent : Option MessageId) (content : String)
        (now : Nat) (r' : Room) (m : Message) (ntfs : List (Nat × Packet)),
        r.send sid parent content now = some (r', m, ntfs) →
        m.time = max (r.last_timestamp + 1) now ∧
        r'.last_timestamp = m.time ∧
        r.last_timestamp < m.time) ∧
    (∀ (r₁ : Room) (sid₁ sid₂ : Nat) (p₁ p₂ : Option MessageId) (c₁ c₂ : String)
        (now₁ now₂ : Nat) (r₂ r₃ : Room) (m₁ m₂ : Message)
        (n₁ n₂ : List (Nat × Packet)),
        r₁.send sid₁ p₁ c₁ now₁ = some (r₂, m₁, n₁) →
        r₂.send sid₂ p₂ c₂ now₂ = some (r₃, m₂, n₂) →
        m₁.time < m₂.time) := by
  have key : ∀ (r : Room) (sid : Nat) (parent : Option MessageId) (content : String)
      (now : Nat) (r' : Room) (m : Message) (ntfs : List (Nat × Packet)),
      r.send sid parent content now = some (r', m, ntfs) →
      m.time = max (r.last_timestamp + 1) now ∧
      r'.last_timestamp = m.time ∧
      r.last_timestamp < m.time := by
    intro r sid parent content now r' m ntfs h
    unfold Room.send at h
    cases hf : r.clients.find? (fun c => c.session.id == sid) with
    | none => rw [hf] at h; cases h
    | some client =>
      rw [hf] at h
      simp only [Option.some.injEq, Prod.mk.injEq] at h
      obtain ⟨hr', hm, -⟩ := h
      subst hm
      refine ⟨rfl, by rw [← hr'], ?_⟩
      show r.last_timestamp < timestamp_after r.last_timestamp now
      unfold timestamp_after
      omega
  refine ⟨key, ?_⟩
  intro r₁ sid₁ sid₂ p₁ p₂ c₁ c₂ now₁ now₂ r₂ r₃ m₁ m₂ n₁ n₂ h₁ h₂
  have k₁ := key _ _ _ _ _ _ _ _ h₁
  have k₂ := key _ _ _ _ _ _ _ _ h₂
  have := k₂.2.2
  rw [k₁.2.1] at this
  exact this

/-- Witness for C4 at a concrete two-send run. -/
theorem c4_timestamp_strictly_increases_witness :
    ∃ (r₂ r₃ : Room) (m₁ m₂ : Message) (n₁ n₂ : List (Nat × Packet)),
      sendDemoRoom.send 1 none "hi" 9 = some (r₂, m₁, n₁) ∧
      r₂.send 2 none "ho" 9 = some (r₃, m₂, n₂) ∧
      m₁.time = max (sendDemoRoom.last_timestamp + 1) 9 ∧
      r₂.last_timestamp = m₁.time ∧
      m₁.time < m₂.time := by
  refine ⟨_, _, _, _, _, _, rfl, rfl, ?_, ?_, ?_⟩
  · exact (c4_timestamp_strictly_increases.1 sendDemoRoom 1 none "hi" 9 _ _ _ rfl).1
  · exact (c4_timestamp_strictly_increases.1 sendDemoRoom 1 none "hi" 9 _ _ _ rfl).2.1
  · exact c4_timestamp_strictly_increases.2 sendDemoRoom 1 2 none none "hi" "ho" 9 9
      _ _ _ _ _ _ rfl rfl

/-- C2: in the atomic welcome+join section of `Server::greet`, the new
client is first sent `IdentifyRpl::Success { you, others, last_message }`
where `others` is exactly the sessions of the members present before the
join (so not including the new client) and `last_message` is the room's
value at that instant; then `JoinNtf { who := you }` is broadcast, with
exactly one notification addressed to each existing member and every
broadcast entry addressed to an existing member; and only then is the
new client inserted (the resulting member list is the old one plus the
new client). -/
theorem c2_atomic_welcome_join :
    ∀ (cmdId : Nat) (you : Session) (r : Room),
      (∀ c ∈ r.clients, c.session.id ≠ you.id) →
      (r.clients.map (fun c => c.session.id)).Nodup →
      ∃ w ntfs r',
        Server.greetAtomic cmdId you r = some (w, ntfs, r') ∧
        w = Packet.rpl cmdId
          (.identifySuccess you (r.clients.map (fun c => c.session)) r.last_message) ∧
        (∀ s ∈ r.clients.map (fun c => c.session), s.id ≠ you.id) ∧
        ntfs = r.clients.map (fun c => (c.session.id, Packet.ntf (.join you))) ∧
        (∀ c ∈ r.clients, ntfs.countP (fun e => e.1 == c.session.id) = 1) ∧
        (∀ e ∈ ntfs, e.2 = Packet.ntf (.join you) ∧
          e.1 ∈ r.clients.map (fun c => c.session.id)) ∧
        r'.clients = r.clients ++ [{ session := you }] := by
  intro cmdId you r hfresh hnd
  have hnojoin : r.clients.any (fun x => x.session.id == you.id) = false := by
    rw [List.any_eq_false]
    intro c hc
    simpa using hfresh c hc
  refine ⟨Packet.rpl cmdId
      (.identifySuccess you (r.clients.map (fun c => c.session)) r.last_message),
    r.clients.map (fun c => (c.session.id, Packet.ntf (.join you))),
    { r with clients := r.clients ++ [{ session := you }] },
    ?_, rfl, ?_, rfl, ?_, ?_, rfl⟩
  · unfold Server.greetAtomic Server.welcome Room.join
    rw [hnojoin]
    simp
  · intro s hs
    rcases List.mem_map.mp hs with ⟨c, hc, rfl⟩
    exact hfresh c hc
  · intro c hc
    exact countP_addressed_eq_one r.clients (Packet.ntf (.join you)) c hc hnd
  · intro e he
    rcases List.mem_map.mp he with ⟨c, hc, rfl⟩
    exact ⟨rfl, List.mem_map.mpr ⟨c, hc, rfl⟩⟩

/-- Witness for C2: a two-member room greets a fresh third session. -/
theorem c2_atomic_welcome_join_witness :
    ∃ w ntfs r',
      Server.greetAtomic 4 { id := 3, nick := "c", identity := 9 } sendDemoRoom =
        some (w, ntfs, r') ∧
      w = Packet.rpl 4 (.identifySuccess { id := 3, nick := "c", identity := 9 }
        (sendDemoRoom.clients.map (fun c => c.session)) sendDemoRoom.last_message) ∧
      (∀ s ∈ sendDemoRoom.clients.map (fun c => c.session), s.id ≠ 3) ∧
      ntfs = sendDemoRoom.clients.map
        (fun c => (c.session.id,
          Packet.ntf (.join { id := 3, nick := "c", identity := 9 }))) ∧
      (∀ c ∈ sendDemoRoom.clients, ntfs.countP (fun e => e.1 == c.session.id) = 1) ∧
      (∀ e ∈ ntfs, e.2 = Packet.ntf (.join { id := 3, nick := "c", identity := 9 }) ∧
        e.1 ∈ sendDemoRoom.clients.map (fun c => c.session.id)) ∧
      r'.clients = sendDemoRoom.clients ++
        [{ session := { id := 3, nick := "c", identity := 9 } }] :=
  c2_atomic_welcome_join 4 { id := 3, nick := "c", identity := 9 } sendDemoRoom
    (by decide) (by decide)

/-- C7: when content validation fails, `handle_send` replies with the
correlated `SendRpl::InvalidContent { reason }`, broadcasts no `SendNtf`
to anyone, and leaves the room state — in particular `last_message` and
`last_timestamp` — untouched (the room is never locked on this path). -/
theorem c7_invalid_content_untouched :
    ∀ (r : Room) (sid cmdId : Nat) (parent : Option MessageId) (content : String)
      (now : Nat) (reason : String),
      check_content content = some reason →
      handleSend r sid cmdId parent content now =
        some ([Packet.rpl cmdId (.sendInvalidContent reason)], r, []) ∧
      ∀ r', handleSend r sid cmdId parent content now =
          some ([Packet.rpl cmdId (.sendInvalidContent reason)], r', []) →
        r'.last_message = r.last_message ∧ r'.last_timestamp = r.last_timestamp := by
  intro r sid cmdId parent content now reason h
  have hmain : handleSend r sid cmdId parent content now =
      some ([Packet.rpl cmdId (.sendInvalidContent reason)], r, []) := by
    unfold handleSend
    rw [h]
  refine ⟨hmain, ?_⟩
  intro r' h'
  rw [hmain] at h'
  simp only [Option.some.injEq, Prod.mk.injEq] at h'
  rw [← h'.2.1]
  exact ⟨rfl, rfl⟩

/-- Witness for C7: sending the empty string. -/
theorem c7_invalid_content_untouched_witness :
    check_content "" = some "empty" ∧
    handleSend sendDemoRoom 1 11 none "" 6 =
      some ([Packet.rpl 11 (.sendInvalidContent "empty")], sendDemoRoom, []) :=
  ⟨by decide,
   (c7_invalid_content_untouched sendDemoRoom 1 11 none "" 6 "empty" (by decide)).1⟩

/-- Counterexample for C8 as stated: the initial `last_message` of a
fresh room is `MessageId::of` applied to a freshly drawn random u64, so
two runs of the server in which the random generator yields different
values (here 0 and 1) produce different initial `last_message` values
for the same freshly created room name. -/
theorem c8_counterexample :
    (Room.new "r" 0 0).last_message ≠ (Room.new "r" 1 0).last_message := by
  decide

/-- C8 (amended): the initial `last_message` reported in
`IdentifyRpl::Success` to the first joiner of a fresh room is the room's
seed `MessageId::of(random u64)` — a deterministic function of the
random value drawn at room creation (so it is reproducible only for
equal draws, not across arbitrary runs), and the first joiner sees
`others = []`. -/
theorem c8_fresh_room_seed :
    ∀ (name : String) (seed now cmdId : Nat) (you : Session),
      (Room.new name seed now).last_message = .ofString (toString seed) ∧
      Server.greetAtomic cmdId you (Room.new name seed now) =
        some (Packet.rpl cmdId
                (.identifySuccess you [] (.ofString (toString seed))),
              [],
              { name := name
                clients := [{ session := you }]
                last_message := .ofString (toString seed)
                last_timestamp := now }) := by
  intro name seed now cmdId you
  exact ⟨rfl, rfl⟩

/-- C9: after a successful `migrate` the `user_version` pragma equals the
total number of migrations, the list of still-to-apply migrations is
empty, and a second call to `migrate` applies no migration function and
returns the state unchanged (idempotence). -/
theorem c9_migrate_idempotent :
    ∀ (Db : Type) (migrations : List (Db → Except String Db))
      (s s' : VaultState Db),
      migrate migrations s = .ok s' →
      s'.user_version = migrations.length ∧
      migrations.drop s'.user_version = [] ∧
      migrate migrations s' = .ok s' := by
  intro Db migrations s s' h
  unfold migrate at h
  cases hf : (migrations.drop s.user_version).foldlM (fun d m => m d) s.db with
  | error e => rw [hf] at h; cases h
  | ok db =>
    rw [hf] at h
    simp only [Except.ok.injEq] at h
    have huv : s'.user_version = migrations.length := by rw [← h]
    have hdrop : migrations.drop s'.user_version = [] := by
      rw [huv, List.drop_length]
    refine ⟨huv, hdrop, ?_⟩
    unfold migrate
    rw [hdrop]
    simp only [List.foldlM_nil]
    rw [← h]
    rfl

/-- Witness for C9: one migration over a counter database. -/
theorem c9_migrate_idempotent_witness :
    migrate [fun d => Except.ok (d + 1)] ({ user_version := 0, db := 0 } : VaultState Nat) =
      .ok { user_version := 1, db := 1 } ∧
    ([fun d => Except.ok (d + 1)] : List (Nat → Except String Nat)).drop 1 = [] ∧
    migrate [fun d => Except.ok (d + 1)] ({ user_version := 1, db := 1 } : VaultState Nat) =
      .ok { user_version := 1, db := 1 } :=
  ⟨rfl,
   (c9_migrate_idempotent Nat [fun d => Except.ok (d + 1)]
      { user_version := 0, db := 0 } { user_version := 1, db := 1 } rfl).2.1,
   (c9_migrate_idempotent Nat [fun d => Except.ok (d + 1)]
      { user_version := 0, db := 0 } { user_version := 1, db := 1 } rfl).2.2⟩

/-- C10: for every inner widget size function and all optional bounds,
the Border widget's reported size is the inner widget's size under each
bound reduced by 2 (saturating at 0, which is `Nat` subtraction) plus
`(2, 2)`: a border adds exactly two columns and two rows. -/
theorem c10_border_adds_two :
    ∀ (inner : WidgetSize) (maxWidth maxHeight : Option Nat),
      borderSize inner maxWidth maxHeight =
        ((inner (maxWidth.map (fun w => w - 2)) (maxHeight.map (fun h => h - 2))).1 + 2,
         (inner (maxWidth.map (fun w => w - 2)) (maxHeight.map (fun h => h - 2))).2 + 2) ∧
      (borderSize inner maxWidth maxHeight).1 =
        (inner (maxWidth.map (fun w => w - 2)) (maxHeight.map (fun h => h - 2))).1 + 2 ∧
      (borderSize inner maxWidth maxHeight).2 =
        (inner (maxWidth.map (fun w => w - 2)) (maxHeight.map (fun h => h - 2))).2 + 2 := by
  intro inner maxWidth maxHeight
  exact ⟨rfl, rfl, rfl⟩

/-! ## Layout engine data model (src/src/ui/chat/tree/layout.rs)

The supporting types (`Cursor`, `Correction`, `BlockId`, `Block`,
`TreeBlocks`, the `MsgStore`/`Tree` interface) live in modules that are
not under src/ and are modelled from the spec's section 3; the layout
algorithms themselves are transcribed from layout.rs. -/

/-- Modelled from the spec: the polymorphic cursor.  Message ids are
`Nat`; the editor text buffer is irrelevant to geometry and omitted
(the editor widget's measured height and cursor row are carried in the
layout state instead). -/
inductive Cursor where
  | bottom
  | msg (i : Nat)
  | editor (parent : Option Nat)
  | pseudo (parent : Option Nat)
  deriving DecidableEq, Repr

/-- The pending correction variants from layout.rs. -/
inductive Correction where
  | makeCursorVisible
  | moveCursorToVisibleArea
  | centerCursor
  deriving DecidableEq, Repr

/-- Modelled from the spec: `BlockId ∈ { Msg(id), Cursor, LastCursor }`. -/
inductive BlockId where
  | msg (i : Nat)
  | cursor
  | lastCursor
  deriving DecidableEq, Repr, BEq

/-- Modelled from the spec: a rendered block with a height and a focus
range (the rows considered cursor rows, relative to the block's top).
`Block::new` without an explicit `.focus(..)` gets the widget's full
extent as focus. -/
structure Block where
  id : BlockId
  height : Nat
  focus : Nat × Nat
  deriving DecidableEq, Repr

/-- Modelled from the spec: the ordered block list.  Blocks are laid out
contiguously; `firstTop` is the absolute line of the first block and each
later block starts where the previous one ends, so offset-by-Δ,
set-top-line, set-bottom-line and recalculate-offsets all just move
`firstTop`.  For an empty list `topLine = firstTop` and
`bottomLine = firstTop - 1`. -/
structure Blocks where
  firstTop : Int
  blks : List Block
  deriving DecidableEq, Repr

/-- Modelled from the spec: the top/bottom root marker of a `TreeBlocks`:
either a tree root id or the pseudo-tree below all trees. -/
inductive Root where
  | bottom
  | tree (i : Nat)
  deriving DecidableEq, Repr

/-- Modelled from the spec: a doubly-extendable ordered block list
together with its top and bottom root markers. -/
structure TreeBlocks where
  topRoot : Root
  botRoot : Root
  blocks : Blocks
  deriving DecidableEq, Repr

def Blocks.totalHeight (b : Blocks) : Nat :=
  (b.blks.map (fun x => x.height)).sum

def Blocks.topLine (b : Blocks) : Int := b.firstTop

def Blocks.bottomLine (b : Blocks) : Int := b.firstTop + b.totalHeight - 1

def Blocks.offset (b : Blocks) (d : Int) : Blocks :=
  { b with firstTop := b.firstTop + d }

def Blocks.setTopLine (b : Blocks) (l : Int) : Blocks :=
  { b with firstTop := l }

def Blocks.setBottomLine (b : Blocks) (l : Int) : Blocks :=
  { b with firstTop := l - b.totalHeight + 1 }

/-- The block list with each block's absolute top line. -/
def Blocks.withTopsGo (top : Int) : List Block → List (Int × Block)
  | [] => []
  | x :: xs => (top, x) :: Blocks.withTopsGo (top + x.height) xs

def Blocks.withTops (b : Blocks) : List (Int × Block) :=
  Blocks.withTopsGo b.firstTop b.blks

/-- `Blocks::find`: the first block with the given id, with its absolute
top line. -/
def Blocks.find (b : Blocks) (bid : BlockId) : Option (Int × Block) :=
  b.withTops.find? (fun x => x.2.id == bid)

def Blocks.recalcGo (bid : BlockId) (acc : Int) : List Block → Option Int
  | [] => none
  | x :: xs => if x.id == bid then some acc else Blocks.recalcGo bid (acc + x.height) xs

/-- Modelled from the spec: recalculate offsets so that the first block
with the given id sits at the given line; if the id is absent the
offsets are left unchanged. -/
def Blocks.recalcOffsets (b : Blocks) (bid : BlockId) (line : Int) : Blocks :=
  match Blocks.recalcGo bid 0 b.blks with
  | some before => { b with firstTop := line - before }
  | none => b

def TreeBlocks.onBlocks (b : TreeBlocks) (f : Blocks → Blocks) : TreeBlocks :=
  { b with blocks := f b.blocks }

/-- Modelled from the spec: prepend a whole tree layout above the
current blocks (the new chunk ends immediately above the old top; the
top root marker is taken from the new chunk). -/
def TreeBlocks.prepend (b other : TreeBlocks) : TreeBlocks :=
  { topRoot := other.topRoot
    botRoot := b.botRoot
    blocks := { firstTop := b.blocks.firstTop - other.blocks.totalHeight
                blks := other.blocks.blks ++ b.blocks.blks } }

/-- Modelled from the spec: append a whole tree layout below the current
blocks. -/
def TreeBlocks.append (b other : TreeBlocks) : TreeBlocks :=
  { topRoot := b.topRoot
    botRoot := other.botRoot
    blocks := { firstTop := b.blocks.firstTop
                blks := b.blocks.blks ++ other.blocks.blks } }

/-- Modelled from the spec: an in-memory message tree snapshot: node id,
the measured height of the node's message widget, and the ordered
children. -/
inductive RTree where
  | node (id : Nat) (height : Nat) (children : List RTree)

def RTree.id : RTree → Nat
  | .node i _ _ => i

def RTree.height : RTree → Nat
  | .node _ h _ => h

def RTree.children : RTree → List RTree
  | .node _ _ cs => cs

/-- Modelled from the spec: the message store is the ordered list of
tree snapshots (`prev_tree_id`/`next_tree_id` enumerate adjacent
entries, `last_tree_id` is the last entry). -/
def Store : Type := List RTree

/-- `MsgStore::tree`: the snapshot whose root has the given id. -/
def treeOf (st : Store) (i : Nat) : Option RTree :=
  st.find? (fun t => t.id == i)

/-- The trees strictly above the given root, nearest first (the
successive values of `prev_tree_id`/`last_tree_id` during upward
expansion). -/
def treesAbove (st : Store) (r : Root) : List RTree :=
  match r with
  | .bottom => st.reverse
  | .tree i => (st.takeWhile (fun t => t.id != i)).reverse

/-- The trees strictly below the given root, nearest first (the
successive values of `next_tree_id` during downward expansion). -/
def treesBelow (st : Store) (r : Root) : List RTree :=
  match r with
  | .bottom => []
  | .tree i => ((st.dropWhile (fun t => t.id != i)).drop 1)

mutual

/-- `MsgStore::path`: the root-to-node id path inside one tree. -/
def pathInTree (i : Nat) : RTree → Option (List Nat)
  | .node j _ cs =>
    if j == i then some [j]
    else match pathInForest i cs with
      | some p => some (j :: p)
      | none => none

/-- `pathInTree` over an ordered forest. -/
def pathInForest (i : Nat) : List RTree → Option (List Nat)
  | [] => none
  | t :: ts =>
    match pathInTree i t with
    | some p => some p
    | none => pathInForest i ts

end

/-- `MsgStore::path` over the whole store. -/
def storePath (st : Store) (i : Nat) : Option (List Nat) :=
  pathInForest i st

/-- The layout engine's persistent state (the fields of
`InnerTreeViewState` that `relayout` reads and writes).  `editorHeight`
and `editorRow` stand for the measured height and cursor row of the
editor/pseudo widget (whose rendering code is external). -/
structure LayoutState where
  cursor : Cursor
  lastCursor : Cursor
  lastCursorLine : Int
  lastVisibleMsgs : List Nat
  scroll : Int
  folded : List Nat
  correction : Option Correction
  editorHeight : Nat
  editorRow : Nat
  deriving DecidableEq, Repr

/-- `scrolloff` from layout.rs: `min((height - 10).max(0) / 2, 2)`.
The frame height is a u16, so it is modelled as `Nat` (where truncated
subtraction is exactly `(height - 10).max(0)`). -/
def scrolloff (height : Nat) : Nat :=
  min ((height - 10) / 2) 2

/-- Modelled from the spec: `Cursor::refers_to(id)` — the cursor is
pinned to exactly this message. -/
def Cursor.refersTo (c : Cursor) (i : Nat) : Bool :=
  match c with
  | .msg j => j == i
  | _ => false

/-- Modelled from the spec: `Cursor::refers_to_last_child_of(id)` — an
editor or pseudo cursor positioned immediately after `id`'s subtree. -/
def Cursor.refersToLastChildOf (c : Cursor) (i : Nat) : Bool :=
  match c with
  | .editor (some p) => p == i
  | .pseudo (some p) => p == i
  | _ => false

/-- `BlockId::from_cursor`: the total map from cursors to block ids. -/
def BlockId.fromCursor (c : Cursor) : BlockId :=
  match c with
  | .msg i => .msg i
  | _ => .cursor

/-- The zero-height `LastCursor` ghost block (an `Empty` widget). -/
def ghostBlock : Block :=
  { id := .lastCursor, height := 0, focus := (0, 0) }

/-- The zero-height `Cursor` block used when the cursor is `Bottom`. -/
def bottomCursorBlock : Block :=
  { id := .cursor, height := 0, focus := (0, 0) }

/-- A rendered message block: full-extent focus. -/
def msgBlock (i h : Nat) : Block :=
  { id := .msg i, height := h, focus := (0, h) }

/-- `editor_block`: focus is `cursor_row..cursor_row + 1`. -/
def editorBlock (s : LayoutState) : Block :=
  { id := .cursor, height := s.editorHeight, focus := (s.editorRow, s.editorRow + 1) }

/-- `pseudo_block`: default (full-extent) focus. -/
def pseudoBlock (s : LayoutState) : Block :=
  { id := .cursor, height := s.editorHeight, focus := (0, s.editorHeight) }

mutual

/-- `layout_subtree` from layout.rs: leading `LastCursor` ghost when the
last cursor refers to this message; the message block; the children when
not folded; a trailing ghost when the last cursor sits after this
subtree; a trailing editor/pseudo block when the cursor sits after this
subtree.  (Indentation and highlighting do not affect geometry and are
dropped; the message widget's measured height is the node's height.) -/
def layoutSubtree (s : LayoutState) : RTree → List Block
  | .node i h cs =>
    (if s.lastCursor.refersTo i then [ghostBlock] else []) ++
    [msgBlock i h] ++
    (if s.folded.contains i then [] else layoutForest s cs) ++
    (if s.lastCursor.refersToLastChildOf i then [ghostBlock] else []) ++
    (if s.cursor.refersToLastChildOf i then
      match s.cursor with
      | .editor _ => [editorBlock s]
      | .pseudo _ => [pseudoBlock s]
      | _ => []
     else [])

/-- `layout_subtree` folded over the ordered children. -/
def layoutForest (s : LayoutState) : List RTree → List Block
  | [] => []
  | t :: ts => layoutSubtree s t ++ layoutForest s ts

end

/-- `layout_tree` from layout.rs: a `TreeBlocks` rooted at the tree on
both sides, containing the subtree layout. -/
def layoutTree (s : LayoutState) (t : RTree) : TreeBlocks :=
  { topRoot := .tree t.id
    botRoot := .tree t.id
    blocks := { firstTop := 0, blks := layoutSubtree s t } }

/-- `layout_bottom` from layout.rs: the pseudo-tree below all trees — a
`LastCursor` ghost when the last cursor is a top-level editor/pseudo,
then the cursor block when the cursor is `Bottom` (an `Empty` widget) or
a top-level editor/pseudo. -/
def layoutBottom (s : LayoutState) : TreeBlocks :=
  { topRoot := .bottom
    botRoot := .bottom
    blocks :=
      { firstTop := 0
        blks :=
          (match s.lastCursor with
           | .editor none => [ghostBlock]
           | .pseudo none => [ghostBlock]
           | _ => []) ++
          (match s.cursor with
           | .bottom => [bottomCursorBlock]
           | .editor none => [editorBlock s]
           | .pseudo none => [pseudoBlock s]
           | _ => []) } }

/-- `cursor_path` from layout.rs: `Msg` uses the store path; `Bottom`
and top-level editor/pseudo are the singleton last-possible-id path;
editor/pseudo under a parent append the last-possible-id to the parent's
path.  Path segments are `Option Nat` with `none` as the
last-possible-id sentinel (which orders after every real id). -/
def cursorPath (st : Store) (c : Cursor) : Option (List (Option Nat)) :=
  match c with
  | .msg i => (storePath st i).map (fun p => p.map some)
  | .bottom => some [none]
  | .editor none => some [none]
  | .pseudo none => some [none]
  | .editor (some p) => (storePath st p).map (fun q => q.map some ++ [none])
  | .pseudo (some p) => (storePath st p).map (fun q => q.map some ++ [none])

/-- Modelled from the spec: the segment order of `Path`, with the
last-possible-id sentinel (`none`) greater than every real id. -/
def segLt (a b : Option Nat) : Bool :=
  match a, b with
  | some x, some y => x < y
  | some _, none => true
  | none, _ => false

/-- Modelled from the spec: lexicographic comparison of paths. -/
def pathLt : List (Option Nat) → List (Option Nat) → Bool
  | [], [] => false
  | [], _ :: _ => true
  | _ :: _, [] => false
  | a :: as_, b :: bs => segLt a b || (a == b && pathLt as_ bs)

/-- `layout_last_cursor_seed` from layout.rs: `Bottom` lays out the
bottom pseudo-tree anchored at line `H-1`; top-level editor/pseudo lay
out the bottom pseudo-tree with the `LastCursor` ghost recalculated to
`last_cursor_line`; the message-tree cursors lay out the tree of the
path's first segment with the ghost at `last_cursor_line`. -/
def layoutLastCursorSeed (st : Store) (H : Nat) (s : LayoutState)
    (lastCursorPath : List (Option Nat)) : Option TreeBlocks :=
  match s.lastCursor with
  | .bottom =>
      some ((layoutBottom s).onBlocks (fun b => b.setBottomLine ((H : Int) - 1)))
  | .editor none =>
      some ((layoutBottom s).onBlocks
        (fun b => b.recalcOffsets .lastCursor s.lastCursorLine))
  | .pseudo none =>
      some ((layoutBottom s).onBlocks
        (fun b => b.recalcOffsets .lastCursor s.lastCursorLine))
  | _ =>
      match lastCursorPath.head? with
      | some (some rootId) =>
          (treeOf st rootId).map (fun t =>
            (layoutTree s t).onBlocks
              (fun b => b.recalcOffsets .lastCursor s.lastCursorLine))
      | _ => none

/-- `layout_cursor_seed` from layout.rs: bottom-family cursors lay out
the bottom pseudo-tree anchored at `H-1`; the message-tree cursors lay
out the tree of the cursor path's first segment with the cursor block at
line 0 when `cursor_path < last_cursor_path`, else at line `H-1`. -/
def layoutCursorSeed (st : Store) (H : Nat) (s : LayoutState)
    (lastCursorPath cursorPth : List (Option Nat)) : Option TreeBlocks :=
  match s.cursor with
  | .bottom =>
      some ((layoutBottom s).onBlocks (fun b => b.setBottomLine ((H : Int) - 1)))
  | .editor none =>
      some ((layoutBottom s).onBlocks (fun b => b.setBottomLine ((H : Int) - 1)))
  | .pseudo none =>
      some ((layoutBottom s).onBlocks (fun b => b.setBottomLine ((H : Int) - 1)))
  | _ =>
      match cursorPth.head? with
      | some (some rootId) =>
          (treeOf st rootId).map (fun t =>
            let cursorLine : Int :=
              if pathLt cursorPth lastCursorPath then 0 else (H : Int) - 1
            (layoutTree s t).onBlocks
              (fun b => b.recalcOffsets (BlockId.fromCursor s.cursor) cursorLine))
      | _ => none

/-- `layout_initial_seed` from layout.rs: cursor-anchored when the
cursor is `Bottom`, last-cursor-anchored otherwise. -/
def layoutInitialSeed (st : Store) (H : Nat) (s : LayoutState)
    (lastCursorPath cursorPth : List (Option Nat)) : Option TreeBlocks :=
  match s.cursor with
  | .bottom => layoutCursorSeed st H s lastCursorPath cursorPth
  | _ => layoutLastCursorSeed st H s lastCursorPath


/-- The loop body of `expand_to_top` from layout.rs, driven by the list
of trees above the current top root (nearest first): while the top line
is above the viewport top (`top_line > 0`), fetch the previous tree and
prepend its layout; stop when no previous tree exists. -/
def expandTopGo (s : LayoutState) : List RTree → TreeBlocks → TreeBlocks
  | above, b =>
    if b.blocks.topLine ≤ 0 then b
    else
      match above with
      | [] => b
      | t :: rest => expandTopGo s rest (b.prepend (layoutTree s t))

/-- `expand_to_top` from layout.rs. -/
def expandTop (st : Store) (s : LayoutState) (b : TreeBlocks) : TreeBlocks :=
  expandTopGo s (treesAbove st b.topRoot) b

/-- The loop body of `expand_to_bottom` from layout.rs, driven by the
list of trees below the current bottom root (nearest first): while the
bottom line is above `H-1`, append the next tree's layout; when the
bottom root is already the pseudo-tree, stop; when the next tree does
not exist, append the bottom pseudo-tree layout (after which the loop
stops in either case since the bottom root is then `Bottom`). -/
def expandBottomGo (s : LayoutState) (H : Nat) : List RTree → TreeBlocks → TreeBlocks
  | below, b =>
    if (H : Int) - 1 ≤ b.blocks.bottomLine then b
    else
      match b.botRoot with
      | .bottom => b
      | .tree _ =>
        match below with
        | [] => b.append (layoutBottom s)
        | t :: rest => expandBottomGo s H rest (b.append (layoutTree s t))

/-- `expand_to_bottom` from layout.rs. -/
def expandBottom (st : Store) (H : Nat) (s : LayoutState) (b : TreeBlocks) : TreeBlocks :=
  expandBottomGo s H (treesBelow st b.botRoot) b

/-- `fill_screen_and_clamp_scrolling` from layout.rs: expand upward;
clamp the top line to 0 if the expansion could not cover it; expand
downward; clamp the bottom line to `H-1` if the expansion could not
cover it; expand upward once more (with no final clamp). -/
def fillScreen (st : Store) (H : Nat) (s : LayoutState) (b : TreeBlocks) : TreeBlocks :=
  let b := expandTop st s b
  let b := if 0 < b.blocks.topLine then b.onBlocks (fun x => x.setTopLine 0) else b
  let b := expandBottom st H s b
  let b :=
    if b.blocks.bottomLine < (H : Int) - 1 then
      b.onBlocks (fun x => x.setBottomLine ((H : Int) - 1))
    else b
  expandTop st s b

/-- `contains_cursor` from layout.rs. -/
def containsCursor (s : LayoutState) (b : TreeBlocks) : Bool :=
  (b.blocks.find (BlockId.fromCursor s.cursor)).isSome

/-- `cursor_line` from layout.rs: 0 for `Bottom` (the value is ignored),
otherwise the top line of the cursor's block (`none` models the
"no cursor found" panic). -/
def cursorLine (s : LayoutState) (b : TreeBlocks) : Option Int :=
  match s.cursor with
  | .bottom => some 0
  | _ => (b.blocks.find (BlockId.fromCursor s.cursor)).map (fun x => x.1)

/-- `scroll_so_cursor_is_visible` from layout.rs: no-op for `Bottom`;
otherwise find the cursor block, compute
`min = -focus.start + scrolloff` and `max = H - focus.end - scrolloff`,
move the block's top line to `top.min(max).max(min)` (deliberately in
this order, preferring the top of an oversized block), and offset every
block by the same delta. -/
def scrollSoCursorIsVisible (H : Nat) (s : LayoutState) (b : TreeBlocks) :
    Option TreeBlocks :=
  match s.cursor with
  | .bottom => some b
  | _ =>
    match b.blocks.find (BlockId.fromCursor s.cursor) with
    | none => none
    | some (top, blk) =>
      let so : Int := scrolloff H
      let minLine : Int := -(blk.focus.1 : Int) + so
      let maxLine : Int := (H : Int) - (blk.focus.2 : Int) - so
      let newTop := max (min top maxLine) minLine
      some (if newTop ≠ top then b.onBlocks (fun x => x.offset (newTop - top)) else b)

/-- `scroll_so_cursor_is_centered` from layout.rs: like
`scroll_so_cursor_is_visible` but the target top line is
`(H - height) / 2` before the same clamping. -/
def scrollSoCursorIsCentered (H : Nat) (s : LayoutState) (b : TreeBlocks) :
    Option TreeBlocks :=
  match s.cursor with
  | .bottom => some b
  | _ =>
    match b.blocks.find (BlockId.fromCursor s.cursor) with
    | none => none
    | some (top, blk) =>
      let so : Int := scrolloff H
      let minLine : Int := -(blk.focus.1 : Int) + so
      let maxLine : Int := (H : Int) - (blk.focus.2 : Int) - so
      let newTop := max (min (((H : Int) - (blk.height : Int)) / 2) maxLine) minLine
      some (if newTop ≠ top then b.onBlocks (fun x => x.offset (newTop - top)) else b)

/-- The id carried by a `Msg` block. -/
def msgIdOf (bl : Block) : Option Nat :=
  match bl.id with
  | .msg i => some i
  | _ => none

/-- The first `Msg` block id in a walk over positioned blocks. -/
def firstMsgId (l : List (Int × Block)) : Option Nat :=
  l.findSome? (fun x => msgIdOf x.2)

/-- `visible` from layout.rs:
`(first_line + 1 - height ..= last_line).contains(top_line)`. -/
def visibleB (firstLine lastLine : Int) (x : Int × Block) : Bool :=
  decide (firstLine + 1 - (x.2.height : Int) ≤ x.1 ∧ x.1 ≤ lastLine)

/-- `move_cursor_so_it_is_visible` from layout.rs: only `Bottom` and
`Msg` cursors are moved.  With the visible band
`[scrolloff, H-1-scrolloff]`: from `Bottom`, pick the last visible `Msg`
block (reverse walk); from `Msg`, if the cursor block is visible do
nothing, otherwise walk forward when the block is above the band and in
reverse otherwise, picking the first visible `Msg` block.  On a pick the
cursor becomes `Msg(id)` and the id is returned. -/
def moveCursorSoItIsVisible (H : Nat) (s : LayoutState) (b : TreeBlocks) :
    Option (LayoutState × Option Nat) :=
  match s.cursor with
  | .editor _ => some (s, none)
  | .pseudo _ => some (s, none)
  | .bottom =>
    let firstLine : Int := scrolloff H
    let lastLine : Int := (H : Int) - 1 - scrolloff H
    match firstMsgId (b.blocks.withTops.reverse.filter (visibleB firstLine lastLine)) with
    | some i => some ({ s with cursor := .msg i }, some i)
    | none => some (s, none)
  | .msg c =>
    let firstLine : Int := scrolloff H
    let lastLine : Int := (H : Int) - 1 - scrolloff H
    match b.blocks.find (.msg c) with
    | none => none
    | some (top, blk) =>
      if visibleB firstLine lastLine (top, blk) then some (s, none)
      else
        let nc :=
          if top < firstLine then
            firstMsgId (b.blocks.withTops.filter (visibleB firstLine lastLine))
          else
            firstMsgId (b.blocks.withTops.reverse.filter (visibleB firstLine lastLine))
        match nc with
        | some i => some ({ s with cursor := .msg i }, some i)
        | none => some (s, none)

/-- `visible_msgs` from layout.rs: ids of `Msg` blocks whose vertical
extent intersects `[0, H-1]`, in block order. -/
def visibleMsgs (H : Nat) (b : TreeBlocks) : List Nat :=
  (b.blocks.withTops.filter (visibleB 0 ((H : Int) - 1))).filterMap
    (fun x => msgIdOf x.2)

/-- The commit step at the end of `relayout`: update `last_cursor`,
`last_cursor_line`, `last_visible_msgs`, clear `scroll` and
`correction`. -/
def commitState (H : Nat) (s : LayoutState) (b : TreeBlocks) : Option LayoutState :=
  (cursorLine s b).map (fun cl =>
    { s with lastCursor := s.cursor
             lastCursorLine := cl
             lastVisibleMsgs := visibleMsgs H b
             scroll := 0
             correction := none })

/-- The full redraw performed by `relayout` after
`MoveCursorToVisibleArea` moved the cursor: a last-cursor seed for the
new cursor's path, filled and committed. -/
def redrawAfterMove (st : Store) (H : Nat) (sMid : LayoutState)
    (p : List (Option Nat)) : Option (LayoutState × TreeBlocks) :=
  match layoutLastCursorSeed st H sMid p with
  | none => none
  | some b₂ =>
    let b₂ := fillScreen st H sMid b₂
    (commitState H sMid b₂).map (fun s' => (s', b₂))

/-- The correction-and-commit tail of `relayout` (layout.rs lines
521–562), applied to the blocks produced by the seeding and filling
phase. -/
def relayoutFrom (st : Store) (H : Nat) (s : LayoutState) (b : TreeBlocks) :
    Option (LayoutState × TreeBlocks) :=
  match s.correction with
  | some .makeCursorVisible =>
    match scrollSoCursorIsVisible H s b with
    | none => none
    | some b' =>
      let b' := fillScreen st H s b'
      (commitState H s b').map (fun s' => (s', b'))
  | some .centerCursor =>
    match scrollSoCursorIsCentered H s b with
    | none => none
    | some b' =>
      let b' := fillScreen st H s b'
      (commitState H s b').map (fun s' => (s', b'))
  | some .moveCursorToVisibleArea =>
    match moveCursorSoItIsVisible H s b with
    | none => none
    | some (s₂, none) => (commitState H s₂ b).map (fun s' => (s', b))
    | some (s₂, some i) =>
      match cursorLine s₂ b with
      | none => none
      | some cl =>
        let sMid :=
          { s₂ with lastCursor := s₂.cursor
                    lastCursorLine := cl
                    lastVisibleMsgs := visibleMsgs H b
                    scroll := 0
                    correction := none }
        match storePath st i with
        | none => none
        | some pp => redrawAfterMove st H sMid (pp.map some)
  | none => (commitState H s b).map (fun s' => (s', b))

/-- `relayout` from layout.rs: compute both cursor paths, unfold the
cursor path's ancestors, seed, apply the pending scroll, fill; re-seed
from the cursor when the cursor block is absent and fill again; then
apply the pending correction and commit. -/
def relayout (st : Store) (H : Nat) (s : LayoutState) :
    Option (LayoutState × TreeBlocks) :=
  match cursorPath st s.lastCursor, cursorPath st s.cursor with
  | some lastPath, some curPath =>
    let s := { s with
      folded := s.folded.filter (fun f => !(curPath.dropLast.contains (some f))) }
    match layoutInitialSeed st H s lastPath curPath with
    | none => none
    | some seed =>
      let b := seed.onBlocks (fun x => x.offset s.scroll)
      let b := fillScreen st H s b
      let b? :=
        if containsCursor s b then some b
        else (layoutCursorSeed st H s lastPath curPath).map (fillScreen st H s)
      match b? with
      | none => none
      | some b => relayoutFrom st H s b
  | _, _ => none

/-! ## Layout theorems: viewport coverage (C3) -/

/-- Helper: `takeWhile` passes over a prefix on which the predicate
holds. -/
theorem takeWhile_append_all {α : Type} (p : α → Bool) (l₁ l₂ : List α)
    (h : ∀ y ∈ l₁, p y = true) :
    (l₁ ++ l₂).takeWhile p = l₁ ++ l₂.takeWhile p := by
  induction l₁ with
  | nil => simp
  | cons x t ih =>
    have hx : p x = true := h x (List.mem_cons_self x t)
    simp only [List.cons_append, List.takeWhile_cons, hx, if_true, List.cons.injEq,
      true_and]
    exact ih (fun y hy => h y (List.mem_cons_of_mem x hy))

/-- Helper: in a store with pairwise-distinct root ids, consuming the
nearest tree above keeps the above-list consistent: if the trees above
root `r` are `t :: rest`, then the trees above `t` are `rest`. -/
theorem treesAbove_eq_of_cons (st : Store) (wf : (st.map RTree.id).Nodup)
    {r : Root} {t : RTree} {rest : List RTree}
    (h : treesAbove st r = t :: rest) :
    treesAbove st (.tree t.id) = rest := by
  obtain ⟨M, hst⟩ : ∃ M, st = rest.reverse ++ t :: M := by
    cases r with
    | bottom =>
      simp only [treesAbove] at h
      refine ⟨[], ?_⟩
      have h' := congrArg List.reverse h
      simp only [List.reverse_reverse, List.reverse_cons] at h'
      rw [h']
    | tree i =>
      simp only [treesAbove] at h
      have h' : st.takeWhile (fun x => x.id != i) = rest.reverse ++ [t] := by
        have h'' := congrArg List.reverse h
        simp only [List.reverse_reverse, List.reverse_cons] at h''
        exact h''
      refine ⟨st.dropWhile (fun x => x.id != i), ?_⟩
      conv_lhs => rw [← List.takeWhile_append_dropWhile
        (p := fun x => x.id != i) (l := st)]
      rw [h']
      simp
  subst hst
  have hne : ∀ y ∈ rest.reverse, (y.id != t.id) = true := by
    intro y hy
    have wf' := wf
    simp only [List.map_append, List.map_cons, List.nodup_append] at wf'
    have hdisj := wf'.2.2
    have hmem : y.id ∈ rest.reverse.map RTree.id := List.mem_map.mpr ⟨y, hy, rfl⟩
    have hne' : y.id ≠ t.id := by
      intro he
      exact hdisj hmem (by rw [he]; exact List.mem_cons_self _ _)
    simpa using hne'
  simp only [treesAbove]
  rw [takeWhile_append_all _ _ _ hne]
  simp only [List.takeWhile_cons, bne_self_eq_false, if_false]
  simp

/-- Helper: prepending a chunk does not move the bottom line. -/
theorem prepend_bottomLine (b o : TreeBlocks) :
    (b.prepend o).blocks.bottomLine = b.blocks.bottomLine := by
  simp only [TreeBlocks.prepend, Blocks.bottomLine, Blocks.totalHeight,
    List.map_append, List.sum_append]
  push_cast
  ring

/-- Helper: upward expansion does not move the bottom line. -/
theorem expandTopGo_bottomLine (s : LayoutState) :
    ∀ (above : List RTree) (b : TreeBlocks),
      (expandTopGo s above b).blocks.bottomLine = b.blocks.bottomLine := by
  intro above
  induction above with
  | nil =>
    intro b
    unfold expandTopGo
    split <;> rfl
  | cons t rest ih =>
    intro b
    unfold expandTopGo
    split
    · rfl
    · rw [ih (b.prepend (layoutTree s t))]
      exact prepend_bottomLine b (layoutTree s t)

/-- Helper: after upward expansion either the viewport top is covered or
the history above the resulting top root is exhausted (in a store with
pairwise-distinct root ids). -/
theorem expandTopGo_post (st : Store) (wf : (st.map RTree.id).Nodup)
    (s : LayoutState) :
    ∀ (above : List RTree) (b : TreeBlocks),
      above = treesAbove st b.topRoot →
      (expandTopGo s above b).blocks.topLine ≤ 0 ∨
      treesAbove st (expandTopGo s above b).topRoot = [] := by
  intro above
  induction above with
  | nil =>
    intro b hinv
    unfold expandTopGo
    split
    · next h => exact Or.inl h
    · next h =>
        dsimp only
        right
        exact hinv.symm
  | cons t rest ih =>
    intro b hinv
    unfold expandTopGo
    split
    · next h => exact Or.inl h
    · next h =>
        dsimp only
        exact ih (b.prepend (layoutTree s t))
          (treesAbove_eq_of_cons st wf hinv.symm).symm

/-- Helper: `fill_screen_and_clamp_scrolling` always ends with the
bottom line at or below `H-1`, and with either the top line at or above
0 or the history above the top root exhausted. -/
theorem fillScreen_post (st : Store) (wf : (st.map RTree.id).Nodup)
    (H : Nat) (s : LayoutState) (b : TreeBlocks) :
    (H : Int) - 1 ≤ (fillScreen st H s b).blocks.bottomLine ∧
    ((fillScreen st H s b).blocks.topLine ≤ 0 ∨
      treesAbove st (fillScreen st H s b).topRoot = []) := by
  have htop : ∀ x : TreeBlocks, (expandTop st s x).blocks.topLine ≤ 0 ∨
      treesAbove st (expandTop st s x).topRoot = [] :=
    fun x => expandTopGo_post st wf s (treesAbove st x.topRoot) x rfl
  have hbot : ∀ x : TreeBlocks,
      (expandTop st s x).blocks.bottomLine = x.blocks.bottomLine :=
    fun x => expandTopGo_bottomLine s (treesAbove st x.topRoot) x
  have hclamp : ∀ x : TreeBlocks, (H : Int) - 1 ≤
      ((if x.blocks.bottomLine < (H : Int) - 1 then
          x.onBlocks (fun y => y.setBottomLine ((H : Int) - 1))
        else x)).blocks.bottomLine := by
    intro x
    split
    · simp only [TreeBlocks.onBlocks, Blocks.setBottomLine, Blocks.bottomLine,
        Blocks.totalHeight]
      omega
    · next hle => omega
  simp only [fillScreen]
  refine ⟨?_, htop _⟩
  rw [hbot]
  exact hclamp _

/-- Helper: the blocks returned by `redrawAfterMove` come out of a
`fillScreen` pass. -/
theorem redrawAfterMove_blocks (st : Store) (H : Nat) (sMid : LayoutState)
    (pth : List (Option Nat)) (q : LayoutState × TreeBlocks)
    (h : redrawAfterMove st H sMid pth = some q) :
    ∃ b₀, q.2 = fillScreen st H sMid b₀ := by
  unfold redrawAfterMove at h
  split at h
  · cases h
  · next b₂ heq =>
    simp only [] at h
    cases hc : commitState H sMid (fillScreen st H sMid b₂) with
    | none => rw [hc] at h; cases h
    | some s' =>
      rw [hc, Option.map_some'] at h
      cases h
      exact ⟨b₂, rfl⟩

/-- Helper: the blocks returned by the correction-and-commit tail are
either those it was given or the output of a `fillScreen` pass. -/
theorem relayoutFrom_blocks (st : Store) (H : Nat) (s : LayoutState)
    (b : TreeBlocks) (p : LayoutState × TreeBlocks)
    (h : relayoutFrom st H s b = some p) :
    (∃ s₀ b₀, p.2 = fillScreen st H s₀ b₀) ∨ p.2 = b := by
  unfold relayoutFrom at h
  split at h
  · -- makeCursorVisible
    split at h
    · cases h
    · next b' heq =>
      simp only [] at h
      cases hc : commitState H s (fillScreen st H s b') with
      | none => rw [hc] at h; cases h
      | some s' =>
        rw [hc, Option.map_some'] at h
        cases h
        exact Or.inl ⟨s, b', rfl⟩
  · -- centerCursor
    split at h
    · cases h
    · next b' heq =>
      simp only [] at h
      cases hc : commitState H s (fillScreen st H s b') with
      | none => rw [hc] at h; cases h
      | some s' =>
        rw [hc, Option.map_some'] at h
        cases h
        exact Or.inl ⟨s, b', rfl⟩
  · -- moveCursorToVisibleArea
    split at h
    · cases h
    · -- moved nothing
      next s₂ heq =>
        cases hc : commitState H s₂ b with
        | none => rw [hc] at h; cases h
        | some s' =>
          rw [hc, Option.map_some'] at h
          cases h
          exact Or.inr rfl
    · -- moved to a message id
      next s₂ i heq =>
        split at h
        · cases h
        · next cl hcl =>
          try simp only [] at h
          split at h
          · cases h
          · next pp hpp =>
            rcases redrawAfterMove_blocks st H _ _ p h with ⟨b₀, hb⟩
            exact Or.inl ⟨_, b₀, hb⟩
  · -- no correction
    cases hc : commitState H s b with
    | none => rw [hc] at h; cases h
    | some s' =>
      rw [hc, Option.map_some'] at h
      cases h
      exact Or.inr rfl

/-- Helper: the blocks returned by `relayout` always come out of a
`fillScreen` pass. -/
theorem relayout_blocks_shape (st : Store) (H : Nat) (s : LayoutState)
    (p : LayoutState × TreeBlocks) (h : relayout st H s = some p) :
    ∃ s₀ b₀, p.2 = fillScreen st H s₀ b₀ := by
  unfold relayout at h
  split at h
  · next lastPath curPath hl hc =>
    try simp only [] at h
    split at h
    · cases h
    · next seed hseed =>
      try simp only [] at h
      split at h
      · cases h
      · next bb hbb =>
        rcases relayoutFrom_blocks st H _ bb p h with ⟨s₀, b₀, hb⟩ | hb
        · exact ⟨s₀, b₀, hb⟩
        · rw [hb]
          split at hbb
          · cases hbb
            exact ⟨_, _, rfl⟩
          · obtain ⟨b2, hcs, hfb⟩ := Option.map_eq_some'.mp hbb
            exact ⟨_, b2, hfb.symm⟩
  · cases h

/-- Counterexample store for the coverage claim: a single small tree. -/
def cst3 : Store := [RTree.node 1 3 []]

/-- Counterexample state for the coverage claim: cursor and last cursor
on the single message, no scroll, no correction. -/
def cs3 : LayoutState :=
  { cursor := .msg 1
    lastCursor := .msg 1
    lastCursorLine := 0
    lastVisibleMsgs := []
    scroll := 0
    folded := []
    correction := none
    editorHeight := 1
    editorRow := 0 }

/-- Counterexample for C3 as stated: with a 3-line history on a 10-line
screen, `relayout` bottom-anchors the content, so the top line of the
first returned block is 7 > 0 — the claim's unconditional "top ≤ 0"
fails when the history above is exhausted. -/
theorem c3_counterexample :
    ∃ p, relayout cst3 10 cs3 = some p ∧ 0 < p.2.blocks.topLine := by
  refine ⟨_, rfl, ?_⟩
  decide

/-- C3 (amended): after every successful `relayout` pass over a store
with pairwise-distinct root ids, the bottom line of the block list is at
or below `H-1` (scrolling is bottom-bounded, with the bottom clamped to
exactly `H-1` when the content below ran out), and the top line is at or
above 0 unless the history above the top root is exhausted (in which
case the content is bottom-anchored and blank lines may remain at the
top). -/
theorem c3_viewport_coverage :
    ∀ (st : Store) (H : Nat) (s : LayoutState) (p : LayoutState × TreeBlocks),
      (st.map RTree.id).Nodup →
      relayout st H s = some p →
      (H : Int) - 1 ≤ p.2.blocks.bottomLine ∧
      (p.2.blocks.topLine ≤ 0 ∨ treesAbove st p.2.topRoot = []) := by
  intro st H s p wf h
  obtain ⟨s₀, b₀, hb⟩ := relayout_blocks_shape st H s p h
  rw [hb]
  exact fillScreen_post st wf H s₀ b₀

/-- Witness for C3 (amended) at the concrete counterexample scenario. -/
theorem c3_viewport_coverage_witness :
    ∃ p, relayout cst3 10 cs3 = some p ∧
      ((10 : Nat) : Int) - 1 ≤ p.2.blocks.bottomLine ∧
      (p.2.blocks.topLine ≤ 0 ∨ treesAbove cst3 p.2.topRoot = []) := by
  refine ⟨_, rfl, ?_⟩
  exact c3_viewport_coverage cst3 10 cs3 _ (by decide) rfl

/-! ## Layout theorems: MakeCursorVisible (C5) -/

/-- Helper: the scroll-off band fits in the screen: `2·scrolloff < H`. -/
theorem two_scrolloff_lt (H : Nat) (h : 1 ≤ H) : 2 * scrolloff H + 1 ≤ H := by
  unfold scrolloff
  omega

/-- Helper: shifting the base line shifts every positioned block. -/
theorem withTopsGo_shift (d : Int) :
    ∀ (l : List Block) (t : Int),
      Blocks.withTopsGo (t + d) l =
        (Blocks.withTopsGo t l).map (fun x => (x.1 + d, x.2)) := by
  intro l
  induction l with
  | nil => intro t; rfl
  | cons x xs ih =>
    intro t
    simp only [Blocks.withTopsGo, List.map_cons, List.cons.injEq, true_and]
    have harr : t + d + (x.height : Int) = t + (x.height : Int) + d := by ring
    rw [harr]
    exact ih (t + (x.height : Int))

/-- Helper: `find` commutes with a uniform offset. -/
theorem find_offset (b : Blocks) (d : Int) (bid : BlockId) :
    (b.offset d).find bid = (b.find bid).map (fun x => (x.1 + d, x.2)) := by
  unfold Blocks.find Blocks.offset Blocks.withTops
  simp only []
  rw [withTopsGo_shift]
  rw [List.find?_map]
  rfl

/-- C5: for a non-`Bottom` cursor whose block is found with focus range
`focus` and top line `top`, `scroll_so_cursor_is_visible` computes
`min = -focus.start + scrolloff` and `max = H - focus.end - scrolloff`,
moves the cursor block's top line to `top.min(max).max(min)` (so for a
block taller than the window the top wins over the bottom), shifts every
block by that same delta (the block list itself is unchanged), and
afterwards — for a nonempty focus and a positive screen height — the
cursor block's focus rows intersect the band
`[scrolloff, H-1-scrolloff]`. -/
theorem c5_make_cursor_visible :
    ∀ (H : Nat) (s : LayoutState) (b : TreeBlocks) (top : Int) (blk : Block),
      s.cursor ≠ .bottom →
      b.blocks.find (BlockId.fromCursor s.cursor) = some (top, blk) →
      blk.focus.1 < blk.focus.2 →
      1 ≤ H →
      ∃ b', scrollSoCursorIsVisible H s b = some b' ∧
        b'.blocks.blks = b.blocks.blks ∧
        b'.blocks.firstTop = b.blocks.firstTop +
          (max (min top ((H : Int) - (blk.focus.2 : Int) - (scrolloff H : Int)))
            (-(blk.focus.1 : Int) + (scrolloff H : Int)) - top) ∧
        b'.blocks.find (BlockId.fromCursor s.cursor) =
          some (max (min top ((H : Int) - (blk.focus.2 : Int) - (scrolloff H : Int)))
            (-(blk.focus.1 : Int) + (scrolloff H : Int)), blk) ∧
        max (min top ((H : Int) - (blk.focus.2 : Int) - (scrolloff H : Int)))
            (-(blk.focus.1 : Int) + (scrolloff H : Int)) + (blk.focus.1 : Int) ≤
          (H : Int) - 1 - (scrolloff H : Int) ∧
        (scrolloff H : Int) ≤
          max (min top ((H : Int) - (blk.focus.2 : Int) - (scrolloff H : Int)))
            (-(blk.focus.1 : Int) + (scrolloff H : Int)) + (blk.focus.2 : Int) - 1 := by
  intro H s b top blk hc hf hne hH
  have hso := two_scrolloff_lt H hH
  have harith :
      max (min top ((H : Int) - (blk.focus.2 : Int) - (scrolloff H : Int)))
          (-(blk.focus.1 : Int) + (scrolloff H : Int)) + (blk.focus.1 : Int) ≤
        (H : Int) - 1 - (scrolloff H : Int) ∧
      (scrolloff H : Int) ≤
        max (min top ((H : Int) - (blk.focus.2 : Int) - (scrolloff H : Int)))
          (-(blk.focus.1 : Int) + (scrolloff H : Int)) + (blk.focus.2 : Int) - 1 := by
    constructor <;> omega
  rcases hcur : s.cursor with _ | i | pr | pr
  · exact absurd hcur hc
  all_goals (
    rw [hcur] at hf
    simp only [scrollSoCursorIsVisible, hcur, hf]
    refine ⟨_, rfl, ?_, ?_, ?_, harith.1, harith.2⟩
    · split
      · rfl
      · rfl
    · split
      · rfl
      · next hd =>
          push_neg at hd
          rw [hd]
          omega
    · split
      · next hd =>
          show (b.blocks.offset _).find _ = _
          rw [find_offset, hf]
          simp only [Option.map_some']
          rw [show top +
            (max (min top ((H : Int) - (blk.focus.2 : Int) - (scrolloff H : Int)))
              (-(blk.focus.1 : Int) + (scrolloff H : Int)) - top) =
            max (min top ((H : Int) - (blk.focus.2 : Int) - (scrolloff H : Int)))
              (-(blk.focus.1 : Int) + (scrolloff H : Int)) from by ring]
      · next hd =>
          push_neg at hd
          rw [hd]
          exact hf)

/-- Concrete state for the MakeCursorVisible witness. -/
def c5state : LayoutState :=
  { cursor := .msg 1
    lastCursor := .msg 1
    lastCursorLine := 0
    lastVisibleMsgs := []
    scroll := 0
    folded := []
    correction := some .makeCursorVisible
    editorHeight := 1
    editorRow := 0 }

/-- Concrete blocks for the MakeCursorVisible witness: one 2-line
message block far below the screen. -/
def c5blocks : TreeBlocks :=
  { topRoot := .tree 1
    botRoot := .tree 1
    blocks := { firstTop := 100, blks := [msgBlock 1 2] } }

/-- Witness for C5 at a concrete off-screen cursor block. -/
theorem c5_make_cursor_visible_witness :
    ∃ b', scrollSoCursorIsVisible 10 c5state c5blocks = some b' ∧
      b'.blocks.blks = c5blocks.blocks.blks ∧
      b'.blocks.firstTop = c5blocks.blocks.firstTop +
        (max (min 100 ((10 : Int) - ((msgBlock 1 2).focus.2 : Int) - (scrolloff 10 : Int)))
          (-((msgBlock 1 2).focus.1 : Int) + (scrolloff 10 : Int)) - 100) ∧
      b'.blocks.find (BlockId.fromCursor c5state.cursor) =
        some (max (min 100 ((10 : Int) - ((msgBlock 1 2).focus.2 : Int) - (scrolloff 10 : Int)))
          (-((msgBlock 1 2).focus.1 : Int) + (scrolloff 10 : Int)), msgBlock 1 2) ∧
      max (min 100 ((10 : Int) - ((msgBlock 1 2).focus.2 : Int) - (scrolloff 10 : Int)))
          ((-(msgBlock 1 2).focus.1 : Int) + (scrolloff 10 : Int)) +
          ((msgBlock 1 2).focus.1 : Int) ≤
        (10 : Int) - 1 - (scrolloff 10 : Int) ∧
      (scrolloff 10 : Int) ≤
        max (min 100 ((10 : Int) - ((msgBlock 1 2).focus.2 : Int) - (scrolloff 10 : Int)))
          (-((msgBlock 1 2).focus.1 : Int) + (scrolloff 10 : Int)) +
          ((msgBlock 1 2).focus.2 : Int) - 1 :=
  c5_make_cursor_visible 10 c5state c5blocks 100 (msgBlock 1 2)
    (by decide) rfl (by decide) (by decide)

/-! ## Layout theorems: MoveCursorToVisibleArea (C6) -/

/-- Concrete blocks for the MoveCursorToVisibleArea claims: a 5-line
message 1 entirely above the screen and a 1-line message 2 at line 0. -/
def cb6 : TreeBlocks :=
  { topRoot := .tree 1
    botRoot := .tree 2
    blocks := { firstTop := -5, blks := [msgBlock 1 5, msgBlock 2 1] } }

/-- Concrete state for the MoveCursorToVisibleArea claims: cursor on
message 1 (off screen above). -/
def cs6 : LayoutState :=
  { cursor := .msg 1
    lastCursor := .msg 1
    lastCursorLine := 0
    lastVisibleMsgs := []
    scroll := 0
    folded := []
    correction := none
    editorHeight := 1
    editorRow := 0 }

/-- Counterexample for C6 as stated: walking forward, the first block
whose id is `Msg(id)` is message 1 itself (still invisible), yet the
code moves the cursor to message 2 — the pick is the first **visible**
`Msg` block, not the first `Msg` block of the walk. -/
theorem c6_counterexample :
    firstMsgId cb6.blocks.withTops = some 1 ∧
    moveCursorSoItIsVisible 10 cs6 cb6 =
      some ({ cs6 with cursor := .msg 2 }, some 2) ∧
    (2 : Nat) ≠ 1 := by
  refine ⟨by decide, by decide, by decide⟩

/-- C6 (amended): `move_cursor_so_it_is_visible` applies only when the
cursor is `Bottom` or `Msg` (editor/pseudo cursors are left alone); with
the visible band `[scrolloff, H-1-scrolloff]`, a `Msg` cursor whose
block is already visible is unchanged, and otherwise the engine walks
the block list — forward if the cursor block is above the band, in
reverse if it is below or the cursor is `Bottom` — and picks the first
**visible** block whose id is `Msg(id)`, setting `cursor = Msg(id)`;
when the relayout correction is `MoveCursorToVisibleArea` and a new id
was picked, the engine performs a full redraw seeded from the new id's
path as last cursor, anchored at the new cursor's line in the old
blocks. -/
theorem c6_move_cursor_to_visible :
    (∀ (H : Nat) (s : LayoutState) (b : TreeBlocks) (pr : Option Nat),
        s.cursor = .editor pr ∨ s.cursor = .pseudo pr →
        moveCursorSoItIsVisible H s b = some (s, none)) ∧
    (∀ (H : Nat) (s : LayoutState) (b : TreeBlocks) (c : Nat) (top : Int) (blk : Block),
        s.cursor = .msg c →
        b.blocks.find (.msg c) = some (top, blk) →
        visibleB (scrolloff H) ((H : Int) - 1 - scrolloff H) (top, blk) = true →
        moveCursorSoItIsVisible H s b = some (s, none)) ∧
    (∀ (H : Nat) (s : LayoutState) (b : TreeBlocks) (c : Nat) (top : Int) (blk : Block),
        s.cursor = .msg c →
        b.blocks.find (.msg c) = some (top, blk) →
        visibleB (scrolloff H) ((H : Int) - 1 - scrolloff H) (top, blk) = false →
        top < (scrolloff H : Int) →
        moveCursorSoItIsVisible H s b =
          (match firstMsgId (b.blocks.withTops.filter
              (visibleB (scrolloff H) ((H : Int) - 1 - scrolloff H))) with
           | some i => some ({ s with cursor := .msg i }, some i)
           | none => some (s, none))) ∧
    (∀ (H : Nat) (s : LayoutState) (b : TreeBlocks) (c : Nat) (top : Int) (blk : Block),
        s.cursor = .msg c →
        b.blocks.find (.msg c) = some (top, blk) →
        visibleB (scrolloff H) ((H : Int) - 1 - scrolloff H) (top, blk) = false →
        ¬(top < (scrolloff H : Int)) →
        moveCursorSoItIsVisible H s b =
          (match firstMsgId (b.blocks.withTops.reverse.filter
              (visibleB (scrolloff H) ((H : Int) - 1 - scrolloff H))) with
           | some i => some ({ s with cursor := .msg i }, some i)
           | none => some (s, none))) ∧
    (∀ (H : Nat) (s : LayoutState) (b : TreeBlocks),
        s.cursor = .bottom →
        moveCursorSoItIsVisible H s b =
          (match firstMsgId (b.blocks.withTops.reverse.filter
              (visibleB (scrolloff H) ((H : Int) - 1 - scrolloff H))) with
           | some i => some ({ s with cursor := .msg i }, some i)
           | none => some (s, none))) ∧
    (∀ (st : Store) (H : Nat) (s s₂ : LayoutState) (b : TreeBlocks) (i : Nat)
        (cl : Int) (pp : List Nat),
        s.correction = some .moveCursorToVisibleArea →
        moveCursorSoItIsVisible H s b = some (s₂, some i) →
        cursorLine s₂ b = some cl →
        storePath st i = some pp →
        relayoutFrom st H s b = redrawAfterMove st H
          { s₂ with lastCursor := s₂.cursor
                    lastCursorLine := cl
                    lastVisibleMsgs := visibleMsgs H b
                    scroll := 0
                    correction := none }
          (pp.map some)) := by
  refine ⟨?_, ?_, ?_, ?_, ?_, ?_⟩
  · intro H s b pr h
    rcases h with h | h <;> simp only [moveCursorSoItIsVisible, h]
  · intro H s b c top blk hcur hfind hvis
    simp only [moveCursorSoItIsVisible, hcur, hfind, hvis, if_true]
  · intro H s b c top blk hcur hfind hvis htl
    simp only [moveCursorSoItIsVisible, hcur, hfind, hvis, Bool.false_eq_true,
      if_false]
    rw [if_pos htl]
  · intro H s b c top blk hcur hfind hvis htl
    simp only [moveCursorSoItIsVisible, hcur, hfind, hvis, Bool.false_eq_true,
      if_false]
    rw [if_neg htl]
  · intro H s b hcur
    simp only [moveCursorSoItIsVisible, hcur]
  · intro st H s s₂ b i cl pp hcorr hmove hcl hpath
    simp only [relayoutFrom, hcorr, hmove, hcl, hpath]

/-- Two-tree store matching the `cb6` blocks, for the redraw witness. -/
def st6 : Store := [RTree.node 1 5 [], RTree.node 2 1 []]

/-- `cs6` with the `MoveCursorToVisibleArea` correction pending. -/
def cs6mcv : LayoutState := { cs6 with correction := some .moveCursorToVisibleArea }

/-- Witness for C6 at the concrete off-screen cursor: the forward pick
of the first visible `Msg` block, and the full-redraw shape of the
relayout arm. -/
theorem c6_move_cursor_to_visible_witness :
    (moveCursorSoItIsVisible 10 cs6 cb6 =
      (match firstMsgId (cb6.blocks.withTops.filter
          (visibleB (scrolloff 10) ((10 : Int) - 1 - scrolloff 10))) with
       | some i => some ({ cs6 with cursor := .msg i }, some i)
       | none => some (cs6, none))) ∧
    relayoutFrom st6 10 cs6mcv cb6 = redrawAfterMove st6 10
      { { cs6mcv with cursor := .msg 2 } with
          lastCursor := ({ cs6mcv with cursor := .msg 2 } : LayoutState).cursor
          lastCursorLine := 0
          lastVisibleMsgs := visibleMsgs 10 cb6
          scroll := 0
          correction := none }
      (([2] : List Nat).map some) :=
  ⟨c6_move_cursor_to_visible.2.2.1 10 cs6 cb6 1 (-5) (msgBlock 1 5)
      rfl (by decide) (by decide) (by decide),
   c6_move_cursor_to_visible.2.2.2.2.2 st6 10 cs6mcv
      { cs6mcv with cursor := .msg 2 } cb6 2 0 [2]
      rfl (by decide) (by decide) (by decide)⟩
